import Mathlib

set_option autoImplicit false

/-!
Shallow embedding of `src/scripts/validate-build.ts` (the whole repository's
source): `validateBuild` loads `<pkgDir>/package.json`, runs a sequential
per-file check loop over the declared `files`, awaits `validatePackageJson`
(entry-point resolution), then scans the directory tree for undeclared files.

Modelling conventions:
* paths are lists of components; `path.join` normalisation is modelled by
  `splitPath` (empty and `.` components dropped);
* the filesystem under `pkgDir` is an explicit tree `FsNode`; executing a
  module (CommonJS `require` / dynamic `import`) either succeeds or throws at
  load time, recorded per file as the `loadThrows` flag;
* external library behaviour (`JSON.parse`, the TypeScript compiler's
  diagnostics) is an oracle carried in `Env`;
* `process.exit(1)` and uncaught exceptions are distinct `Outcome`s;
* the run also yields an ordered trace of the filesystem-level operations it
  performed, to settle ordering claims.
-/

namespace ValidateBuild

/-- The fields of `BuildConfig` (imported from `./util`) that
`validate-build.ts` reads: `pkgDir`, `rootDir`, `esmNode`. -/
structure BuildConfig where
  pkgDir : List String
  rootDir : List String
  esmNode : Bool

/-- One value of the manifest's `exports` record: a plain string path, or a
conditional entry with `import` and `require` sub-paths. -/
inductive ExportEntry where
  | str (path : String)
  | cond (imp req : String)
deriving DecidableEq, Repr

/-- The parsed `package.json` as `validate-build.ts` uses it. The entry-point
fields are `Option` because a parsed JSON object may omit them at runtime
(nothing in the script checks for presence before use). `exports` keeps its
keys in order, as `Object.keys` does for a parsed JSON object. -/
structure PackageJSON where
  files : List String
  main : Option String
  module : Option String
  types : Option String
  exports : Option (List (String × ExportEntry))
deriving DecidableEq, Repr

mutual
/-- A node of the on-disk tree under `pkgDir`. A `file` carries its text
content and whether executing it as a module throws at load time; a `dir`
carries its `readdirSync`-ordered children; `special` is an entry whose
`statSync` reports neither a regular file nor a directory. -/
inductive FsNode where
  | file (content : String) (loadThrows : Bool)
  | dir (children : FsEntries)
  | special

/-- A `readdirSync`-ordered list of named directory entries. -/
inductive FsEntries where
  | nil
  | cons (name : String) (node : FsNode) (rest : FsEntries)
end

/-- Look up the child with the given name. -/
def FsEntries.find? : FsEntries → String → Option FsNode
  | FsEntries.nil, _ => none
  | FsEntries.cons name node rest, c =>
    if name = c then some node else rest.find? c

/-- Build an entry list from a `List` literal. -/
def entriesOf : List (String × FsNode) → FsEntries
  | [] => FsEntries.nil
  | (name, node) :: rest => FsEntries.cons name node (entriesOf rest)

/-- External behaviour the script depends on but that lives outside this
repository: `fs` is the tree rooted at `pkgDir`; `jsonOk c` is whether
`JSON.parse` succeeds on content `c`; `tsDiags p` is the concatenation of
semantic and syntactic diagnostics the TypeScript compiler produces for a
program rooted at the single file `p` (treated as an oracle); `parsePkg` is
`JSON.parse` for package-manifest texts — used by the manifest loader and by
the `require` directory resolution, which reads the `main` field. -/
structure Env where
  fs : FsNode
  jsonOk : String → Bool
  tsDiags : List String → List String
  parsePkg : String → Except String PackageJSON

/-- Split a character list at every occurrence of `sep` (the behaviour of
JS `split` with a one-character separator); defined structurally so that
closed terms evaluate by kernel reduction. -/
def splitOnChar (sep : Char) : List Char → List (List Char)
  | [] => [[]]
  | c :: rest =>
    if c = sep then [] :: splitOnChar sep rest
    else
      match splitOnChar sep rest with
      | [] => [[c]]
      | g :: gs => (c :: g) :: gs

/-- Split a relative path into components the way `path.join` normalises it:
separators split, empty and `.` components dropped. -/
def splitPath (s : String) : List String :=
  ((splitOnChar '/' s.data).map String.mk).filter (fun c => !(c == "") && !(c == "."))

/-- Node's `path.extname` restricted to a single file name: the final
extension including the dot, empty when there is no dot or the only dot is
the leading one (`.bashrc`). -/
def extname (name : String) : String :=
  let parts := (splitOnChar '.' name.data).map String.mk
  if parts.length ≤ 1 then ""
  else if parts.length = 2 ∧ parts.headD "" = "" then ""
  else "." ++ parts.getLastD ""

/-- `path.extname` of a full path looks only at the final component. -/
def extnameOf (p : List String) : String :=
  extname (p.getLastD "")

/-- Resolve a path, given as components relative to the root node. -/
def lookup : FsNode → List String → Option FsNode
  | n, [] => some n
  | FsNode.dir cs, c :: rest =>
    match cs.find? c with
    | some n => lookup n rest
    | none => none
  | _, _ :: _ => none

/-- `readFileSync(p, 'utf-8')`: a missing path throws ENOENT, a directory
throws EISDIR, any other entry also throws. -/
def readFileSync (fs : FsNode) (p : List String) : Except String String :=
  match lookup fs p with
  | some (FsNode.file c _) => Except.ok c
  | some (FsNode.dir _) => Except.error "EISDIR: illegal operation on a directory, read"
  | some FsNode.special => Except.error "EINVAL: invalid file"
  | none => Except.error "ENOENT: no such file or directory"

/-- Append an extension to the last component: the implicit-extension
candidates Node's CommonJS resolution tries when the exact path is not a
file. -/
def siblingExt (ext : String) : List String → List String
  | [] => []
  | [x] => [x ++ ext]
  | x :: rest => x :: siblingExt ext rest

/-- Execute a resolved module file: its top-level code runs and may throw
(for a `.json` target the flag covers a parse failure, for a `.node` target
a binary-load failure). -/
def runModuleFile (t : Bool) : Except String Unit :=
  if t then Except.error "Error thrown at module load" else Except.ok ()

/-- LOAD_AS_FILE(X) of Node's documented CommonJS resolution: the exact path
if it is a file, then the implicit-extension siblings `X.js`, `X.json`,
`X.node`; yields the resolved file's load flag. -/
def resolveAsFile (fs : FsNode) (p : List String) : Option Bool :=
  match lookup fs p with
  | some (FsNode.file _ t) => some t
  | _ =>
    match lookup fs (siblingExt ".js" p) with
    | some (FsNode.file _ t) => some t
    | _ =>
      match lookup fs (siblingExt ".json" p) with
      | some (FsNode.file _ t) => some t
      | _ =>
        match lookup fs (siblingExt ".node" p) with
        | some (FsNode.file _ t) => some t
        | _ => none

/-- LOAD_INDEX(X): `X/index.js`, then `X/index.json`, then `X/index.node`. -/
def loadIndex (fs : FsNode) (p : List String) : Option Bool :=
  match lookup fs (p ++ ["index.js"]) with
  | some (FsNode.file _ t) => some t
  | _ =>
    match lookup fs (p ++ ["index.json"]) with
    | some (FsNode.file _ t) => some t
    | _ =>
      match lookup fs (p ++ ["index.node"]) with
      | some (FsNode.file _ t) => some t
      | _ => none

/-- LOAD_AS_DIRECTORY(X): if `X/package.json` is a file it is parsed and a
truthy `main` field redirects resolution to `X/<main>` (as a file, then as
an index), a missing target throwing; no or falsy `main`, or no
`package.json`, falls back to LOAD_INDEX(X). An unparseable `package.json`
throws during resolution. -/
def loadAsDirectory (env : Env) (p : List String) : Except String Unit :=
  match lookup env.fs (p ++ ["package.json"]) with
  | some (FsNode.file c _) =>
    match env.parsePkg c with
    | Except.ok pj =>
      match pj.main with
      | some m =>
        match resolveAsFile env.fs (p ++ splitPath m) with
        | some t => runModuleFile t
        | none =>
          match loadIndex env.fs (p ++ splitPath m) with
          | some t => runModuleFile t
          | none => Except.error "MODULE_NOT_FOUND"
      | none =>
        match loadIndex env.fs p with
        | some t => runModuleFile t
        | none => Except.error "MODULE_NOT_FOUND"
    | Except.error e => Except.error e
  | _ =>
    match loadIndex env.fs p with
    | some t => runModuleFile t
    | none => Except.error "MODULE_NOT_FOUND"

/-- Node's `require` on an absolute path, following the documented CommonJS
resolution algorithm: LOAD_AS_FILE (exact path, then the `.js`, `.json`,
`.node` siblings), then, when the path is a directory, LOAD_AS_DIRECTORY
(`package.json` `main` redirection, then the index files). Nothing resolved
throws MODULE_NOT_FOUND. -/
def requireLoad (env : Env) (p : List String) : Except String Unit :=
  match resolveAsFile env.fs p with
  | some t => runModuleFile t
  | none =>
    match lookup env.fs p with
    | some (FsNode.dir _) => loadAsDirectory env p
    | _ => Except.error "MODULE_NOT_FOUND"

/-- Dynamic `import()` of a file URL: exactly the named file is loaded (ESM
does no extension guessing); a directory fails with
ERR_UNSUPPORTED_DIR_IMPORT; a top-level throw rejects the import. -/
def importMjs (fs : FsNode) (p : List String) : Except String Unit :=
  match lookup fs p with
  | some (FsNode.file _ t) => runModuleFile t
  | some (FsNode.dir _) => Except.error "ERR_UNSUPPORTED_DIR_IMPORT"
  | _ => Except.error "ERR_MODULE_NOT_FOUND"

/-- `validateTypeScriptFile`: reads `<rootDir>/tsconfig.json`, creates a
compiler program rooted at the one file, concatenates its semantic and
syntactic diagnostics, and throws when any diagnostic is produced. The
compiler is external to this repository, so the diagnostics it yields for a
given root path are the oracle `env.tsDiags`. -/
def validateTypeScriptFile (env : Env) (tsFilePath : List String) : Except String Unit :=
  match env.tsDiags tsFilePath with
  | [] => Except.ok ()
  | ds => Except.error (String.intercalate "; " ds)

/-- JS `String.prototype.trim`: leading and trailing whitespace removed. -/
def jsTrim (s : String) : String :=
  String.mk (((s.data.dropWhile Char.isWhitespace).reverse.dropWhile
    Char.isWhitespace).reverse)

/-- The target of the extension `switch` in the per-file loop. The `.mjs`
case contains no `break` when `esmNode` is disabled, so it falls through to
the `.ts` case; `.json` and `.map` have identical bodies. -/
inductive CheckKind where
  | requireCjs | importEsm | typeCheck | parseJson | nonEmpty
deriving DecidableEq, Repr

/-- The `switch (ext)` dispatch of the per-file loop. -/
def dispatch (esmNode : Bool) (ext : String) : CheckKind :=
  if ext = ".cjs" then CheckKind.requireCjs
  else if ext = ".mjs" then
    (if esmNode then CheckKind.importEsm else CheckKind.typeCheck)
  else if ext = ".ts" then CheckKind.typeCheck
  else if ext = ".json" then CheckKind.parseJson
  else if ext = ".map" then CheckKind.parseJson
  else CheckKind.nonEmpty

/-- The body of one iteration of the per-file loop: dispatch on the file's
extension and run the extension-specific check. -/
def checkFile (config : BuildConfig) (env : Env) (filePath : List String) :
    Except String Unit :=
  match dispatch config.esmNode (extnameOf filePath) with
  | CheckKind.requireCjs => requireLoad env filePath
  | CheckKind.importEsm => importMjs env.fs filePath
  | CheckKind.typeCheck => validateTypeScriptFile env filePath
  | CheckKind.parseJson =>
    (readFileSync env.fs filePath).bind (fun c =>
      if env.jsonOk c then Except.ok ()
      else Except.error "SyntaxError: Unexpected token in JSON")
  | CheckKind.nonEmpty =>
    (readFileSync env.fs filePath).bind (fun c =>
      if jsTrim c = "" then Except.error "empty file" else Except.ok ())

/-- One operation of the run, for the ordered trace. -/
inductive Event where
  | loadManifest
  | checkFile (p : List String)
  | resolvePath (p : Option String)
  | scanTree
deriving DecidableEq, Repr

/-- The sequential `for` loop over the declared files: each path is checked
in manifest order; the first failure prints the path and error and calls
`process.exit(1)`, so no later file is checked. The second component is the
trace of checks actually performed. -/
def runFiles (config : BuildConfig) (env : Env) :
    List (List String) → Except (List String × String) Unit × List Event
  | [] => (Except.ok (), [])
  | p :: rest =>
    match checkFile config env p with
    | Except.ok _ =>
      let r := runFiles config env rest
      (r.1, Event.checkFile p :: r.2)
    | Except.error e => (Except.error (p, e), [Event.checkFile p])

/-- `validatePath`: `await access(join(config.pkgDir, path))` inside a
try/catch whose handler prints the path and the error and exits non-zero.
When the manifest field is absent, `path` is `undefined` and `join` itself
throws a TypeError synchronously — inside the same try, so the same handler
exits the process. `access` succeeds on any existing entry, directories
included. -/
def validatePath (fs : FsNode) (path : Option String) :
    Except (Option String × String) Unit :=
  match path with
  | none => Except.error (none, "TypeError: Path must be a string. Received undefined")
  | some s =>
    match lookup fs (splitPath s) with
    | some _ => Except.ok ()
    | none => Except.error (some s, "ENOENT: no such file or directory")

/-- How `validatePackageJson` can end: all paths resolved, `process.exit(1)`
from a failed `validatePath`, or an exception rejecting the (awaited, never
caught) promise. -/
inductive ResolveResult where
  | ok
  | exitFail (path : Option String) (err : String)
  | crash (err : String)
deriving DecidableEq, Repr

/-- The `Promise.all` over the `exports` keys, serialised in key order (each
async callback runs until its first failing await, and `validatePath` exits
the process at the first failure). A string entry resolves directly; a
conditional entry resolves its `import` sub-path and then its `require`
sub-path. -/
def runExports (fs : FsNode) :
    List (String × ExportEntry) → ResolveResult × List Event
  | [] => (ResolveResult.ok, [])
  | (_, ExportEntry.str s) :: rest =>
    match validatePath fs (some s) with
    | Except.ok _ =>
      let r := runExports fs rest
      (r.1, Event.resolvePath (some s) :: r.2)
    | Except.error pe =>
      (ResolveResult.exitFail pe.1 pe.2, [Event.resolvePath (some s)])
  | (_, ExportEntry.cond imp req) :: rest =>
    match validatePath fs (some imp) with
    | Except.error pe =>
      (ResolveResult.exitFail pe.1 pe.2, [Event.resolvePath (some imp)])
    | Except.ok _ =>
      match validatePath fs (some req) with
      | Except.error pe =>
        (ResolveResult.exitFail pe.1 pe.2,
          [Event.resolvePath (some imp), Event.resolvePath (some req)])
      | Except.ok _ =>
        let r := runExports fs rest
        (r.1, Event.resolvePath (some imp) :: Event.resolvePath (some req) :: r.2)

/-- `validatePackageJson`: a `Promise.all` over `validatePath` for `main`,
`module` and `types` (serialised in call order; a `none` field fails
synchronously at launch, before the next call is made), then the
`Promise.all` over the `exports` keys. When `exports` is absent,
`Object.keys(undefined)` throws a TypeError that rejects the promise; the
caller never catches it. -/
def validatePackageJson (fs : FsNode) (pkg : PackageJSON) :
    ResolveResult × List Event :=
  match validatePath fs pkg.main with
  | Except.error pe =>
    (ResolveResult.exitFail pe.1 pe.2, [Event.resolvePath pkg.main])
  | Except.ok _ =>
    match validatePath fs pkg.module with
    | Except.error pe =>
      (ResolveResult.exitFail pe.1 pe.2,
        [Event.resolvePath pkg.main, Event.resolvePath pkg.module])
    | Except.ok _ =>
      match validatePath fs pkg.types with
      | Except.error pe =>
        (ResolveResult.exitFail pe.1 pe.2,
          [Event.resolvePath pkg.main, Event.resolvePath pkg.module,
            Event.resolvePath pkg.types])
      | Except.ok _ =>
        match pkg.exports with
        | none =>
          (ResolveResult.crash "TypeError: Cannot convert undefined or null to object",
            [Event.resolvePath pkg.main, Event.resolvePath pkg.module,
              Event.resolvePath pkg.types])
        | some exps =>
          let r := runExports fs exps
          (r.1, Event.resolvePath pkg.main :: Event.resolvePath pkg.module ::
            Event.resolvePath pkg.types :: r.2)

mutual
/-- One directory entry during `getFiles`: `statSync` then either collect the
regular file, recurse into the directory, or throw `unexpected <path>` for
anything else (the exception escapes `validateBuild`). -/
def scanNode : List String → String → FsNode → Except String (List (List String))
  | pre, name, FsNode.file _ _ => Except.ok [pre ++ [name]]
  | pre, name, FsNode.dir cs => scanChildren (pre ++ [name]) cs
  | pre, name, FsNode.special =>
    Except.error ("unexpected " ++ String.intercalate "/" (pre ++ [name]))

/-- `getFiles`: depth-first enumeration of the regular files below a
directory, children visited in `readdirSync` order, a subdirectory recursed
in place. Collected paths are relative to `pkgDir`. -/
def scanChildren : List String → FsEntries → Except String (List (List String))
  | _, FsEntries.nil => Except.ok []
  | pre, FsEntries.cons name node rest =>
    (scanNode pre name node).bind (fun a =>
      (scanChildren pre rest).map (fun b => a ++ b))
end

/-- `getFiles(config.pkgDir)`: `readdirSync` on a non-directory throws. -/
def scanRoot (fs : FsNode) : Except String (List (List String)) :=
  match fs with
  | FsNode.dir cs => scanChildren [] cs
  | _ => Except.error "ENOTDIR: not a directory, scandir"

/-- The observable result of one `validateBuild` run: exit 0 with the success
line; `process.exit(1)` carrying a per-file error, a path-resolution error,
or the batched unexpected-files report; or an exception escaping
`validateBuild` uncaught. -/
inductive Outcome where
  | success
  | fileError (path : List String) (err : String)
  | pathError (path : Option String) (err : String)
  | unexpected (paths : List (List String))
  | uncaught (err : String)
deriving DecidableEq, Repr

/-- Step 1 of `validateBuild`:
`JSON.parse(await readFile(join(config.pkgDir, 'package.json'), 'utf-8'))`.
Neither the read nor the parse is inside a try, so a failure of either is an
exception `validateBuild` lets escape. -/
def loadManifest (env : Env) : Except String PackageJSON :=
  (readFileSync env.fs ["package.json"]).bind env.parsePkg

/-- The whole `validateBuild`, paired with the ordered trace of the
operations it performed: load the manifest, run the per-file loop over
`expectedFiles`, await `validatePackageJson`, scan the tree and compare it
against `expectedFiles`, batching every undeclared path into one report. -/
def run (config : BuildConfig) (env : Env) : Outcome × List Event :=
  match loadManifest env with
  | Except.error e => (Outcome.uncaught e, [Event.loadManifest])
  | Except.ok pkg =>
    let expectedFiles := pkg.files.map splitPath
    let fr := runFiles config env expectedFiles
    match fr.1 with
    | Except.error pe => (Outcome.fileError pe.1 pe.2, Event.loadManifest :: fr.2)
    | Except.ok _ =>
      let rr := validatePackageJson env.fs pkg
      match rr.1 with
      | ResolveResult.exitFail p e =>
        (Outcome.pathError p e, Event.loadManifest :: (fr.2 ++ rr.2))
      | ResolveResult.crash e =>
        (Outcome.uncaught e, Event.loadManifest :: (fr.2 ++ rr.2))
      | ResolveResult.ok =>
        match scanRoot env.fs with
        | Except.error e =>
          (Outcome.uncaught e,
            Event.loadManifest :: (fr.2 ++ rr.2 ++ [Event.scanTree]))
        | Except.ok allFiles =>
          let unexpectedFiles := allFiles.filter (fun f => !(expectedFiles.contains f))
          (if unexpectedFiles.isEmpty then Outcome.success
            else Outcome.unexpected unexpectedFiles,
            Event.loadManifest :: (fr.2 ++ rr.2 ++ [Event.scanTree]))

/-- The outcome of `validateBuild` alone. -/
def validateBuild (config : BuildConfig) (env : Env) : Outcome :=
  (run config env).1

/-- The operation trace of a `validateBuild` run alone. -/
def runTrace (config : BuildConfig) (env : Env) : List Event :=
  (run config env).2

/-- Two consecutive validation runs against the same build directory. The
environment handed to the second run is the one left by the first: the script
only calls read APIs (`readFile`, `readFileSync`, `readdirSync`, `statSync`,
`access`), so the tree under `pkgDir` is unchanged (module loads may have
arbitrary external side effects, but write nothing under `pkgDir` in this
model, matching the claim's carve-out). -/
def runTwice (config : BuildConfig) (env : Env) : Outcome × Outcome :=
  let first := run config env
  let envAfter := env
  let second := run config envAfter
  (first.1, second.1)

/-! ### Concrete fixtures

Small concrete build directories and manifests used to evaluate the
definitions on closed inputs. -/

/-- A build configuration rooted at `pkg` with `esmNode` disabled. -/
def cfgA : BuildConfig := ⟨["pkg"], ["root"], false⟩

/-- A build configuration rooted at `pkg` with `esmNode` enabled. -/
def cfgEsm : BuildConfig := ⟨["pkg"], ["root"], true⟩

/-- A tiny valid build directory: the manifest file plus one text file. -/
def fsA : FsNode :=
  FsNode.dir (entriesOf [("package.json", FsNode.file "MANIFEST" false),
    ("a.txt", FsNode.file "ok" false)])

/-- An environment whose parse oracle returns the given manifest, whose
`JSON.parse` accepts everything and whose TypeScript oracle reports no
diagnostics. -/
def envFor (fs : FsNode) (pkg : PackageJSON) : Env :=
  ⟨fs, fun _ => true, fun _ => [], fun _ => Except.ok pkg⟩

/-- A fully valid manifest for `fsA`: every entry-point field present and
resolving to an existing file, an empty `exports` record. -/
def pkgAllPresent : PackageJSON :=
  ⟨["package.json", "a.txt"], some "a.txt", some "a.txt", some "a.txt", some []⟩

/-- The same manifest with `main` absent. -/
def pkgNoMain : PackageJSON :=
  ⟨["package.json", "a.txt"], none, some "a.txt", some "a.txt", some []⟩

/-- The same manifest with `exports` absent. -/
def pkgNoExports : PackageJSON :=
  ⟨["package.json", "a.txt"], some "a.txt", some "a.txt", some "a.txt", none⟩

/-! ### Claim C1 -/

/-- C1, counterexample. The claim says that a manifest omitting `main` (or
`module`, `types`, `exports`) skips the absent field's check and validation
proceeds. On an otherwise fully valid build directory, the run with `main`
present succeeds, but the identical run with `main` absent exits non-zero:
`validatePath` is called with `undefined`, `join` throws a TypeError inside
the try, and the catch handler exits the process. Absence alone does cause a
failure. -/
theorem c1_counterexample :
    validateBuild cfgA (envFor fsA pkgAllPresent) = Outcome.success ∧
    validateBuild cfgA (envFor fsA pkgNoMain) =
      Outcome.pathError none "TypeError: Path must be a string. Received undefined" ∧
    validateBuild cfgA (envFor fsA pkgNoExports) =
      Outcome.uncaught "TypeError: Cannot convert undefined or null to object" := by
  refine ⟨?_, ?_, ?_⟩ <;> rfl

/-- C1, amended: absence of an entry-point field is not skipped. When `main`
is absent, `validatePath(config, undefined)` is launched first, `join` throws
synchronously, the catch exits the process non-zero; likewise for `module`
(after `main` resolves) and `types` (after both); and when `exports` is
absent, `Object.keys(undefined)` throws a TypeError that rejects the promise
and escapes `validateBuild` uncaught. -/
theorem c1_absence_causes_failure :
    ∀ (fs : FsNode) (pkg : PackageJSON),
      (pkg.main = none →
        (validatePackageJson fs pkg).1 = ResolveResult.exitFail none
          "TypeError: Path must be a string. Received undefined") ∧
      (validatePath fs pkg.main = Except.ok () → pkg.module = none →
        (validatePackageJson fs pkg).1 = ResolveResult.exitFail none
          "TypeError: Path must be a string. Received undefined") ∧
      (validatePath fs pkg.main = Except.ok () →
        validatePath fs pkg.module = Except.ok () → pkg.types = none →
        (validatePackageJson fs pkg).1 = ResolveResult.exitFail none
          "TypeError: Path must be a string. Received undefined") ∧
      (validatePath fs pkg.main = Except.ok () →
        validatePath fs pkg.module = Except.ok () →
        validatePath fs pkg.types = Except.ok () → pkg.exports = none →
        (validatePackageJson fs pkg).1 = ResolveResult.crash
          "TypeError: Cannot convert undefined or null to object") := by
  intro fs pkg
  refine ⟨?_, ?_, ?_, ?_⟩
  · intro h
    simp only [validatePackageJson, h]
    simp [validatePath]
  · intro hm h
    simp only [validatePackageJson, hm, h]
    simp [validatePath]
  · intro hm hmo h
    simp only [validatePackageJson, hm, hmo, h]
    simp [validatePath]
  · intro hm hmo ht h
    simp only [validatePackageJson, hm, hmo, ht, h]

/-- C1, witness for the amended theorem on concrete manifests. -/
theorem c1_witness :
    (validatePackageJson fsA pkgNoMain).1 = ResolveResult.exitFail none
      "TypeError: Path must be a string. Received undefined" ∧
    (validatePackageJson fsA pkgNoExports).1 = ResolveResult.crash
      "TypeError: Cannot convert undefined or null to object" :=
  ⟨(c1_absence_causes_failure fsA pkgNoMain).1 rfl,
    (c1_absence_causes_failure fsA pkgNoExports).2.2.2 rfl rfl rfl rfl⟩

/-! ### Claim C8 -/

/-- C8: when `<pkgDir>/package.json` is missing the read fails with ENOENT,
and when it is present but unparseable the parse error is returned; in either
case the manifest loader's error escapes `validateBuild` uncaught (the
outcome is the raw error, not a reformatted one) and the trace shows that no
later check ran. -/
theorem c8_manifest_error_propagates :
    ∀ (config : BuildConfig) (env : Env) (e : String),
      (lookup env.fs ["package.json"] = none →
        loadManifest env = Except.error "ENOENT: no such file or directory") ∧
      (∀ c t, lookup env.fs ["package.json"] = some (FsNode.file c t) →
        env.parsePkg c = Except.error e → loadManifest env = Except.error e) ∧
      (loadManifest env = Except.error e →
        run config env = (Outcome.uncaught e, [Event.loadManifest])) := by
  intro config env e
  refine ⟨?_, ?_, ?_⟩
  · intro h
    simp [loadManifest, readFileSync, h, Except.bind]
  · intro c t h hp
    simp [loadManifest, readFileSync, h, hp, Except.bind]
  · intro h
    simp [run, h]

/-- C8, witness: a directory with no `package.json` crashes the run before
any other check. -/
theorem c8_witness :
    run cfgA (envFor (FsNode.dir (entriesOf [("a.txt", FsNode.file "ok" false)])) pkgAllPresent) =
      (Outcome.uncaught "ENOENT: no such file or directory", [Event.loadManifest]) :=
  (c8_manifest_error_propagates cfgA
      (envFor (FsNode.dir (entriesOf [("a.txt", FsNode.file "ok" false)])) pkgAllPresent)
      "ENOENT: no such file or directory").2.2
    ((c8_manifest_error_propagates cfgA
        (envFor (FsNode.dir (entriesOf [("a.txt", FsNode.file "ok" false)])) pkgAllPresent)
        "ENOENT: no such file or directory").1 rfl)

/-! ### Claim C9 -/

/-- C9: validation is read-only for the build directory — every filesystem
API the script calls is a read, so in the embedding a run is a pure function
of the unchanged environment — and hence idempotent: two consecutive runs
yield the same outcome, and a successful first run means a successful second
run. -/
theorem c9_idempotent :
    ∀ (config : BuildConfig) (env : Env),
      (runTwice config env).1 = (runTwice config env).2 ∧
      ((runTwice config env).1 = Outcome.success →
        (runTwice config env).2 = Outcome.success) := by
  intro config env
  exact ⟨rfl, fun h => h⟩

/-- C9, witness: on the concrete fully valid build directory both runs exit
zero. -/
theorem c9_witness :
    (runTwice cfgA (envFor fsA pkgAllPresent)).1 = Outcome.success ∧
    (runTwice cfgA (envFor fsA pkgAllPresent)).2 = Outcome.success :=
  ⟨rfl, (c9_idempotent cfgA (envFor fsA pkgAllPresent)).2 rfl⟩

/-! ### Claim C10 -/

/-- A build directory in which the declared path `a.cjs` is a directory
containing a loadable `index.js`. -/
def fsCjsDir : FsNode :=
  FsNode.dir (entriesOf [("package.json", FsNode.file "MANIFEST" false),
    ("a.cjs", FsNode.dir (entriesOf [("index.js", FsNode.file "x" false)]))])

/-- A manifest declaring the directory `a.cjs` among its files. -/
def pkgCjsDir : PackageJSON :=
  ⟨["package.json", "a.cjs"], some "package.json", some "package.json",
    some "package.json", some []⟩

/-- C10, counterexample. The claim says a declared path that exists as a
directory always makes the per-file validator raise, print and exit
non-zero. But a declared `a.cjs` that is a directory containing a loadable
`index.js` is accepted by the per-file check: `require` falls back to the
directory's `index.js` (Node's LOAD_AS_DIRECTORY), so no error is raised and
the whole per-file loop succeeds. -/
theorem c10_counterexample :
    lookup fsCjsDir ["a.cjs"] =
      some (FsNode.dir (entriesOf [("index.js", FsNode.file "x" false)])) ∧
    checkFile cfgA (envFor fsCjsDir pkgCjsDir) ["a.cjs"] = Except.ok () ∧
    (runFiles cfgA (envFor fsCjsDir pkgCjsDir)
        (pkgCjsDir.files.map splitPath)).1 = Except.ok () := by
  refine ⟨?_, ?_, ?_⟩ <;> rfl

/-- C10, amended: a declared path that exists as a directory fails the
per-file check with a caught error and a non-zero exit when its extension
routes to a plain file read (`.json`, `.map`, or an unrecognized extension:
EISDIR) and when it is `.mjs` with `esmNode` enabled (directory import
error); but a declared `.cjs` path goes through the full `require`
resolution, and a `.cjs` directory containing a loadable `index.js` (with
no implicit-extension sibling and no `package.json` redirect) is accepted
by the per-file validator — a declared directory can be silently accepted
at this stage. (`.ts`-routed paths are handed to the TypeScript oracle.) -/
theorem c10_declared_directory :
    ∀ (config : BuildConfig) (env : Env) (p : List String) (cs : FsEntries)
      (c : String),
      lookup env.fs p = some (FsNode.dir cs) →
      ((dispatch config.esmNode (extnameOf p) = CheckKind.parseJson ∨
          dispatch config.esmNode (extnameOf p) = CheckKind.nonEmpty) →
        checkFile config env p =
          Except.error "EISDIR: illegal operation on a directory, read") ∧
      (extnameOf p = ".mjs" → config.esmNode = true →
        checkFile config env p = Except.error "ERR_UNSUPPORTED_DIR_IMPORT") ∧
      (extnameOf p = ".cjs" → resolveAsFile env.fs p = none →
        lookup env.fs (p ++ ["package.json"]) = none →
        lookup env.fs (p ++ ["index.js"]) = some (FsNode.file c false) →
        checkFile config env p = Except.ok ()) := by
  intro config env p cs c h
  refine ⟨?_, ?_, ?_⟩
  · intro hd
    rcases hd with hd | hd <;>
      simp [checkFile, hd, readFileSync, h, Except.bind]
  · intro hext hesm
    simp [checkFile, dispatch, hext, hesm, importMjs, h]
  · intro hext hres hpkg hidx
    simp [checkFile, dispatch, hext, requireLoad, hres, h, loadAsDirectory,
      hpkg, loadIndex, hidx, runModuleFile]

/-- C10, witness for the amended theorem: a declared directory named
`d.json` fails with EISDIR, one named `e.mjs` (with `esmNode` enabled)
fails with the directory-import error, and the `a.cjs` directory with a
loadable `index.js` is accepted by the per-file check. -/
theorem c10_witness :
    checkFile cfgA (envFor (FsNode.dir (entriesOf [("d.json", FsNode.dir FsEntries.nil)])) pkgAllPresent)
        ["d.json"] = Except.error "EISDIR: illegal operation on a directory, read" ∧
    checkFile cfgEsm (envFor (FsNode.dir (entriesOf [("e.mjs", FsNode.dir FsEntries.nil)])) pkgAllPresent)
        ["e.mjs"] = Except.error "ERR_UNSUPPORTED_DIR_IMPORT" ∧
    checkFile cfgA (envFor fsCjsDir pkgCjsDir) ["a.cjs"] = Except.ok () :=
  ⟨(c10_declared_directory cfgA
        (envFor (FsNode.dir (entriesOf [("d.json", FsNode.dir FsEntries.nil)])) pkgAllPresent)
        ["d.json"] FsEntries.nil "" rfl).1 (Or.inl rfl),
    (c10_declared_directory cfgEsm
        (envFor (FsNode.dir (entriesOf [("e.mjs", FsNode.dir FsEntries.nil)])) pkgAllPresent)
        ["e.mjs"] FsEntries.nil "" rfl).2.1 rfl rfl,
    (c10_declared_directory cfgA (envFor fsCjsDir pkgCjsDir) ["a.cjs"]
        (entriesOf [("index.js", FsNode.file "x" false)]) "x" rfl).2.2
      rfl rfl rfl rfl⟩

/-! ### Claim C4 -/

/-- C4: a declared `.mjs` file is dynamically imported when `esmNode` is
enabled — its top-level code executes, and a load-time throw fails the run at
that file — while with `esmNode` disabled the `switch` case has no `break`
and falls through to the `.ts` case, handing the file to
`validateTypeScriptFile`, the same single-file type-check used for `.ts`
files. -/
theorem c4_mjs_dispatch :
    ∀ (config : BuildConfig) (env : Env) (p : List String) (c : String)
      (rest : List (List String)),
      extnameOf p = ".mjs" →
      ((config.esmNode = true →
        checkFile config env p = importMjs env.fs p ∧
        (lookup env.fs p = some (FsNode.file c true) →
          (runFiles config env (p :: rest)).1 =
            Except.error (p, "Error thrown at module load"))) ∧
      (config.esmNode = false →
        checkFile config env p = validateTypeScriptFile env p) ∧
      (∀ q, extnameOf q = ".ts" →
        checkFile config env q = validateTypeScriptFile env q)) := by
  intro config env p c rest hext
  refine ⟨?_, ?_, ?_⟩
  · intro hesm
    constructor
    · simp [checkFile, dispatch, hext, hesm]
    · intro hl
      simp [runFiles, checkFile, dispatch, hext, hesm, importMjs, hl, runModuleFile]
  · intro hesm
    simp [checkFile, dispatch, hext, hesm]
  · intro q hq
    simp [checkFile, dispatch, hq]

/-- A build directory with one `.mjs` file whose top-level code throws. -/
def fsMjs : FsNode :=
  FsNode.dir (entriesOf [("package.json", FsNode.file "MANIFEST" false),
    ("a.mjs", FsNode.file "throw" true)])

/-- A manifest declaring the throwing `.mjs` file. -/
def pkgMjs : PackageJSON :=
  ⟨["package.json", "a.mjs"], some "a.mjs", some "a.mjs", some "a.mjs", some []⟩

/-- C4, witness: with `esmNode` enabled the throwing `.mjs` file fails the
loop at its own path; with `esmNode` disabled the same path goes to the
TypeScript check. -/
theorem c4_witness :
    (runFiles cfgEsm (envFor fsMjs pkgMjs) [["a.mjs"]]).1 =
      Except.error (["a.mjs"], "Error thrown at module load") ∧
    checkFile cfgA (envFor fsMjs pkgMjs) ["a.mjs"] =
      validateTypeScriptFile (envFor fsMjs pkgMjs) ["a.mjs"] :=
  ⟨((c4_mjs_dispatch cfgEsm (envFor fsMjs pkgMjs) ["a.mjs"] "throw" [] rfl).1
      rfl).2 rfl,
    (c4_mjs_dispatch cfgA (envFor fsMjs pkgMjs) ["a.mjs"] "throw" [] rfl).2.1 rfl⟩

/-! ### Claim C5 -/

/-- C5: for a conditional `exports` entry both sub-paths are checked, the
`import` sub-path first. When the `import` target is missing the resolver
exits non-zero with the error naming exactly that path, regardless of the
`require` target; when `import` exists but `require` is missing the error
names the `require` path; when both exist resolution proceeds with the
remaining entries. At whole-run level, with every earlier stage passing and
the conditional entry first in `exports`, a missing `import` target makes
the run fail naming the `import` path. -/
theorem c5_conditional_exports :
    ∀ (config : BuildConfig) (env : Env) (pkg : PackageJSON)
      (key imp req : String) (rest : List (String × ExportEntry)),
      (lookup env.fs (splitPath imp) = none →
        (runExports env.fs ((key, ExportEntry.cond imp req) :: rest)).1 =
          ResolveResult.exitFail (some imp) "ENOENT: no such file or directory") ∧
      ((lookup env.fs (splitPath imp)).isSome = true →
        lookup env.fs (splitPath req) = none →
        (runExports env.fs ((key, ExportEntry.cond imp req) :: rest)).1 =
          ResolveResult.exitFail (some req) "ENOENT: no such file or directory") ∧
      ((lookup env.fs (splitPath imp)).isSome = true →
        (lookup env.fs (splitPath req)).isSome = true →
        (runExports env.fs ((key, ExportEntry.cond imp req) :: rest)).1 =
          (runExports env.fs rest).1) ∧
      (loadManifest env = Except.ok pkg →
        (runFiles config env (pkg.files.map splitPath)).1 = Except.ok () →
        validatePath env.fs pkg.main = Except.ok () →
        validatePath env.fs pkg.module = Except.ok () →
        validatePath env.fs pkg.types = Except.ok () →
        pkg.exports = some ((key, ExportEntry.cond imp req) :: rest) →
        lookup env.fs (splitPath imp) = none →
        validateBuild config env =
          Outcome.pathError (some imp) "ENOENT: no such file or directory") := by
  intro config env pkg key imp req rest
  refine ⟨?_, ?_, ?_, ?_⟩
  · intro himp
    simp [runExports, validatePath, himp]
  · intro himp hreq
    obtain ⟨n, hn⟩ := Option.isSome_iff_exists.mp himp
    simp [runExports, validatePath, hn, hreq]
  · intro himp hreq
    obtain ⟨n, hn⟩ := Option.isSome_iff_exists.mp himp
    obtain ⟨m, hm⟩ := Option.isSome_iff_exists.mp hreq
    simp [runExports, validatePath, hn, hm]
  · intro hload hfiles hm hmo ht hexp himp
    simp only [validateBuild, run, hload, hfiles]
    simp only [validatePackageJson, hm, hmo, ht, hexp]
    simp [runExports, validatePath, himp]

/-- A build directory where only the `require` target of the conditional
export exists on disk. -/
def fsSub : FsNode :=
  FsNode.dir (entriesOf [("package.json", FsNode.file "MANIFEST" false),
    ("sub.cjs", FsNode.file "x" false)])

/-- A manifest with a conditional export whose `import` target is missing. -/
def pkgSub : PackageJSON :=
  ⟨["package.json", "sub.cjs"], some "sub.cjs", some "sub.cjs", some "sub.cjs",
    some [("./sub", ExportEntry.cond "./sub.mjs" "./sub.cjs")]⟩

/-- C5, witness: with only `./sub.cjs` on disk, the run fails naming the
missing `./sub.mjs` specifically. -/
theorem c5_witness :
    validateBuild cfgA (envFor fsSub pkgSub) =
      Outcome.pathError (some "./sub.mjs") "ENOENT: no such file or directory" :=
  (c5_conditional_exports cfgA (envFor fsSub pkgSub) pkgSub "./sub" "./sub.mjs"
      "./sub.cjs" []).2.2.2 rfl rfl rfl rfl rfl rfl rfl

/-! ### Claim C6 -/

/-- C6: once the loader, the per-file loop and the resolver have passed, the
tree scanner computes the set difference between the files actually on disk
and the declared set. A non-empty difference yields the batched
`unexpected` outcome carrying every undeclared path at once (non-zero exit);
an empty difference yields exit 0. -/
theorem c6_tree_scan :
    ∀ (config : BuildConfig) (env : Env) (pkg : PackageJSON)
      (allFiles : List (List String)),
      loadManifest env = Except.ok pkg →
      (runFiles config env (pkg.files.map splitPath)).1 = Except.ok () →
      (validatePackageJson env.fs pkg).1 = ResolveResult.ok →
      scanRoot env.fs = Except.ok allFiles →
      ((allFiles.filter (fun f => !((pkg.files.map splitPath).contains f)) = [] →
          validateBuild config env = Outcome.success) ∧
        (allFiles.filter (fun f => !((pkg.files.map splitPath).contains f)) ≠ [] →
          validateBuild config env =
            Outcome.unexpected
              (allFiles.filter (fun f => !((pkg.files.map splitPath).contains f))))) := by
  intro config env pkg allFiles hload hfiles hres hscan
  constructor
  · intro hempty
    simp only [validateBuild, run, hload, hfiles, hres, hscan]
    simp only [hempty]
    rfl
  · intro hne
    simp only [validateBuild, run, hload, hfiles, hres, hscan]
    cases hfe : allFiles.filter (fun f => !((pkg.files.map splitPath).contains f)) with
    | nil => exact absurd hfe hne
    | cons a l => simp [hfe]

/-- A build directory containing an undeclared stray file `b.txt`. -/
def fsStray : FsNode :=
  FsNode.dir (entriesOf [("package.json", FsNode.file "MANIFEST" false),
    ("a.txt", FsNode.file "ok" false), ("b.txt", FsNode.file "stray" false)])

/-- C6, witness: the stray file is reported (batched) and the clean
directory passes. -/
theorem c6_witness :
    validateBuild cfgA (envFor fsStray pkgAllPresent) =
      Outcome.unexpected [["b.txt"]] ∧
    validateBuild cfgA (envFor fsA pkgAllPresent) = Outcome.success :=
  ⟨(c6_tree_scan cfgA (envFor fsStray pkgAllPresent) pkgAllPresent
      [["package.json"], ["a.txt"], ["b.txt"]] rfl rfl rfl rfl).2 (by decide),
    (c6_tree_scan cfgA (envFor fsA pkgAllPresent) pkgAllPresent
      [["package.json"], ["a.txt"]] rfl rfl rfl rfl).1 rfl⟩

/-! ### Claim C7 -/

/-- If every element remaining after `dropWhile p` satisfies `p`, nothing
remained at all. -/
theorem dropWhile_eq_nil_of_forall {α : Type} (p : α → Bool) :
    ∀ l : List α, (∀ x ∈ l.dropWhile p, p x) → l.dropWhile p = [] := by
  intro l
  induction l with
  | nil => intro _; rfl
  | cons a t ih =>
    intro h
    by_cases hp : p a
    · rw [List.dropWhile_cons_of_pos hp] at h ⊢
      exact ih h
    · exfalso
      have ha : a ∈ (a :: t).dropWhile p := by
        rw [List.dropWhile_cons_of_neg (by simpa using hp)]
        exact List.mem_cons_self a t
      exact hp (h a ha)

/-- JS `trim` produces the empty string exactly when every character of the
string is whitespace (in particular on the empty string). -/
theorem jsTrim_eq_empty_iff (s : String) :
    jsTrim s = "" ↔ ∀ c ∈ s.data, Char.isWhitespace c := by
  unfold jsTrim
  constructor
  · intro h c hc
    have hl : ((s.data.dropWhile Char.isWhitespace).reverse.dropWhile
        Char.isWhitespace).reverse = [] := by
      simpa using congrArg String.data h
    have h2 : (s.data.dropWhile Char.isWhitespace).reverse.dropWhile
        Char.isWhitespace = [] := by
      simpa using congrArg List.reverse hl
    have h3 : ∀ x ∈ (s.data.dropWhile Char.isWhitespace).reverse,
        Char.isWhitespace x := List.dropWhile_eq_nil_iff.mp h2
    have h4 : ∀ x ∈ s.data.dropWhile Char.isWhitespace, Char.isWhitespace x :=
      fun x hx => h3 x (List.mem_reverse.mpr hx)
    have h5 : s.data.dropWhile Char.isWhitespace = [] :=
      dropWhile_eq_nil_of_forall Char.isWhitespace s.data h4
    exact List.dropWhile_eq_nil_iff.mp h5 c hc
  · intro h
    have h5 : s.data.dropWhile Char.isWhitespace = [] :=
      List.dropWhile_eq_nil_iff.mpr h
    simp [h5]

/-- C7: a declared file whose extension is none of `.cjs`, `.mjs`, `.ts`,
`.json`, `.map` is read as text and fails with `empty file` exactly when
every character of its content is whitespace (including the zero-byte case);
any non-whitespace character makes the check pass. -/
theorem c7_other_extension_empty :
    ∀ (config : BuildConfig) (env : Env) (p : List String) (content : String)
      (t : Bool),
      extnameOf p ≠ ".cjs" → extnameOf p ≠ ".mjs" → extnameOf p ≠ ".ts" →
      extnameOf p ≠ ".json" → extnameOf p ≠ ".map" →
      lookup env.fs p = some (FsNode.file content t) →
      ((checkFile config env p = Except.error "empty file" ↔
          ∀ c ∈ content.data, Char.isWhitespace c) ∧
        (checkFile config env p = Except.ok () ↔
          ¬ ∀ c ∈ content.data, Char.isWhitespace c)) := by
  intro config env p content t h1 h2 h3 h4 h5 hl
  have hd : dispatch config.esmNode (extnameOf p) = CheckKind.nonEmpty := by
    simp [dispatch, h1, h2, h3, h4, h5]
  have hcf : checkFile config env p =
      (if jsTrim content = "" then Except.error "empty file" else Except.ok ()) := by
    simp [checkFile, hd, readFileSync, hl, Except.bind]
  by_cases hw : jsTrim content = ""
  · have hws := (jsTrim_eq_empty_iff content).mp hw
    rw [hcf, if_pos hw]
    exact ⟨⟨fun _ => hws, fun _ => rfl⟩,
      ⟨fun h => Except.noConfusion h, fun h => absurd hws h⟩⟩
  · have hws : ¬ ∀ c ∈ content.data, Char.isWhitespace c :=
      fun hAll => hw ((jsTrim_eq_empty_iff content).mpr hAll)
    rw [hcf, if_neg hw]
    exact ⟨⟨fun h => Except.noConfusion h, fun hAll => (hws hAll).elim⟩,
      ⟨fun _ => hws, fun _ => rfl⟩⟩

/-- A build directory with a whitespace-only `.xyz` file and a non-empty
one. -/
def fsXyz : FsNode :=
  FsNode.dir (entriesOf [("notes.xyz", FsNode.file "   " false),
    ("b.xyz", FsNode.file "ok" false)])

/-- C7, witness: `notes.xyz` with content three spaces fails with
`empty file`; `b.xyz` with content `ok` passes. -/
theorem c7_witness :
    checkFile cfgA (envFor fsXyz pkgAllPresent) ["notes.xyz"] =
      Except.error "empty file" ∧
    checkFile cfgA (envFor fsXyz pkgAllPresent) ["b.xyz"] = Except.ok () :=
  ⟨((c7_other_extension_empty cfgA (envFor fsXyz pkgAllPresent) ["notes.xyz"]
      "   " false (by decide) (by decide) (by decide) (by decide) (by decide)
      rfl).1).mpr (by decide),
    ((c7_other_extension_empty cfgA (envFor fsXyz pkgAllPresent) ["b.xyz"]
      "ok" false (by decide) (by decide) (by decide) (by decide) (by decide)
      rfl).2).mpr (by decide)⟩

/-! ### Claim C3 -/

/-- The per-file loop's trace is a prefix of the manifest's file list, in
manifest order, mapped to check events: the loop is sequential and stops at
the first failure. -/
theorem runFiles_trace_shape (config : BuildConfig) (env : Env) :
    ∀ l : List (List String), ∃ n : Nat,
      (runFiles config env l).2 = (l.take n).map Event.checkFile := by
  intro l
  induction l with
  | nil => exact ⟨0, rfl⟩
  | cons p rest ih =>
    obtain ⟨n, hn⟩ := ih
    cases h : checkFile config env p with
    | ok u => exact ⟨n + 1, by simp [runFiles, h, hn]⟩
    | error e => exact ⟨1, by simp [runFiles, h]⟩

/-- Every event the `exports` resolution loop performs is a path
resolution. -/
theorem runExports_trace_resolve (fs : FsNode) :
    ∀ l : List (String × ExportEntry), ∀ e ∈ (runExports fs l).2,
      ∃ q, e = Event.resolvePath q := by
  intro l
  induction l with
  | nil => intro e he; simp [runExports] at he
  | cons hd rest ih =>
    obtain ⟨key, entry⟩ := hd
    cases entry with
    | str s =>
      intro e he
      cases h : validatePath fs (some s) with
      | ok u =>
        simp only [runExports, h] at he
        rcases List.mem_cons.mp he with rfl | hmem
        · exact ⟨some s, rfl⟩
        · exact ih e hmem
      | error pe =>
        simp only [runExports, h] at he
        simp at he
        exact ⟨some s, he⟩
    | cond imp req =>
      intro e he
      cases h1 : validatePath fs (some imp) with
      | error pe =>
        simp only [runExports, h1] at he
        simp at he
        exact ⟨some imp, he⟩
      | ok u =>
        cases h2 : validatePath fs (some req) with
        | error pe =>
          simp only [runExports, h1, h2] at he
          simp at he
          rcases he with rfl | rfl
          · exact ⟨some imp, rfl⟩
          · exact ⟨some req, rfl⟩
        | ok u2 =>
          simp only [runExports, h1, h2] at he
          rcases List.mem_cons.mp he with rfl | he
          · exact ⟨some imp, rfl⟩
          rcases List.mem_cons.mp he with rfl | he
          · exact ⟨some req, rfl⟩
          exact ih e he

/-- Every event the entry-point resolver performs is a path resolution. -/
theorem validatePackageJson_trace_resolve (fs : FsNode) (pkg : PackageJSON) :
    ∀ e ∈ (validatePackageJson fs pkg).2, ∃ q, e = Event.resolvePath q := by
  intro e he
  cases hm : validatePath fs pkg.main with
  | error pe =>
    simp only [validatePackageJson, hm] at he
    simp at he
    exact ⟨pkg.main, he⟩
  | ok u =>
    cases hmo : validatePath fs pkg.module with
    | error pe =>
      simp only [validatePackageJson, hm, hmo] at he
      simp at he
      rcases he with rfl | rfl
      · exact ⟨pkg.main, rfl⟩
      · exact ⟨pkg.module, rfl⟩
    | ok u2 =>
      cases ht : validatePath fs pkg.types with
      | error pe =>
        simp only [validatePackageJson, hm, hmo, ht] at he
        simp at he
        rcases he with rfl | rfl | rfl
        · exact ⟨pkg.main, rfl⟩
        · exact ⟨pkg.module, rfl⟩
        · exact ⟨pkg.types, rfl⟩
      | ok u3 =>
        cases hexp : pkg.exports with
        | none =>
          simp only [validatePackageJson, hm, hmo, ht, hexp] at he
          simp at he
          rcases he with rfl | rfl | rfl
          · exact ⟨pkg.main, rfl⟩
          · exact ⟨pkg.module, rfl⟩
          · exact ⟨pkg.types, rfl⟩
        | some exps =>
          simp only [validatePackageJson, hm, hmo, ht, hexp] at he
          rcases List.mem_cons.mp he with rfl | he
          · exact ⟨pkg.main, rfl⟩
          rcases List.mem_cons.mp he with rfl | he
          · exact ⟨pkg.module, rfl⟩
          rcases List.mem_cons.mp he with rfl | he
          · exact ⟨pkg.types, rfl⟩
          exact runExports_trace_resolve fs exps e he

/-- C3, amended: once the loader succeeds, the run's trace is exactly the
manifest load, then the per-file checks — a prefix of the declared files in
manifest order, so sequential, never concurrent — then the entry-point
resolver's path resolutions, then (at most) the tree scan: the file
validator and the resolver run one after the other, not in parallel. -/
theorem c3_sequential_phases :
    ∀ (config : BuildConfig) (env : Env) (pkg : PackageJSON),
      loadManifest env = Except.ok pkg →
      ∃ (n : Nat) (rt st : List Event),
        runTrace config env =
          Event.loadManifest ::
            (((pkg.files.map splitPath).take n).map Event.checkFile ++ rt ++ st) ∧
        (∀ e ∈ rt, ∃ q, e = Event.resolvePath q) ∧
        (st = [] ∨ st = [Event.scanTree]) := by
  intro config env pkg hload
  obtain ⟨n, hn⟩ := runFiles_trace_shape config env (pkg.files.map splitPath)
  cases hf : (runFiles config env (pkg.files.map splitPath)).1 with
  | error pe =>
    refine ⟨n, [], [], ?_, by simp, Or.inl rfl⟩
    simp only [runTrace, run, hload, hf, hn]
    simp
  | ok u =>
    cases hr : (validatePackageJson env.fs pkg).1 with
    | exitFail q e =>
      refine ⟨n, (validatePackageJson env.fs pkg).2, [], ?_,
        validatePackageJson_trace_resolve env.fs pkg, Or.inl rfl⟩
      simp only [runTrace, run, hload, hf, hr, hn]
      simp
    | crash e =>
      refine ⟨n, (validatePackageJson env.fs pkg).2, [], ?_,
        validatePackageJson_trace_resolve env.fs pkg, Or.inl rfl⟩
      simp only [runTrace, run, hload, hf, hr, hn]
      simp
    | ok =>
      cases hs : scanRoot env.fs with
      | error e =>
        refine ⟨n, (validatePackageJson env.fs pkg).2, [Event.scanTree], ?_,
          validatePackageJson_trace_resolve env.fs pkg, Or.inr rfl⟩
        simp only [runTrace, run, hload, hf, hr, hs, hn]
      | ok allFiles =>
        refine ⟨n, (validatePackageJson env.fs pkg).2, [Event.scanTree], ?_,
          validatePackageJson_trace_resolve env.fs pkg, Or.inr rfl⟩
        simp only [runTrace, run, hload, hf, hr, hs, hn]

/-- A manifest declaring only the throwing `.mjs` file, with `main` absent:
the resolver would fail synchronously at launch. -/
def pkgC3 : PackageJSON := ⟨["a.mjs"], none, none, none, none⟩

/-- C3, counterexample. The claim says the file validator and the entry-point
resolver run in parallel. Here the loop's only check fails asynchronously
(the dynamic import's rejection is delivered from the event loop), while the
resolver — `main` being absent — fails synchronously the moment it is
launched (`join(pkgDir, undefined)` throws before any await). Had the
resolver been launched in parallel with the validator, its synchronous
failure would run, and exit the process, during the validator's first
suspension, so the run would record its path resolution and report the path
error. Instead the trace contains no resolution event at all and the outcome
is the file error: the resolver is only invoked after the loop has
finished. -/
theorem c3_counterexample :
    runTrace cfgEsm (envFor fsMjs pkgC3) =
      [Event.loadManifest, Event.checkFile ["a.mjs"]] ∧
    (validatePackageJson fsMjs pkgC3).1 =
      ResolveResult.exitFail none "TypeError: Path must be a string. Received undefined" ∧
    validateBuild cfgEsm (envFor fsMjs pkgC3) =
      Outcome.fileError ["a.mjs"] "Error thrown at module load" := by
  refine ⟨?_, ?_, ?_⟩ <;> rfl

/-- C3, witness for the amended theorem on the concrete valid build. -/
theorem c3_witness :
    ∃ (n : Nat) (rt st : List Event),
      runTrace cfgA (envFor fsA pkgAllPresent) =
        Event.loadManifest ::
          (((pkgAllPresent.files.map splitPath).take n).map Event.checkFile ++
            rt ++ st) ∧
      (∀ e ∈ rt, ∃ q, e = Event.resolvePath q) ∧
      (st = [] ∨ st = [Event.scanTree]) :=
  c3_sequential_phases cfgA (envFor fsA pkgAllPresent) pkgAllPresent rfl

end ValidateBuild
